import Mathlib

/-!
Shallow embedding of the core of nervgh/tetris-problem.

Sources:
  src/script.js          - Figure, TetrisFigure, TetrisWorld, TetrisProblemSolver
  src/unnamed/part_001   - PriorityQueue, GraphNode, bestFirstGraphSearch, astarGraphSearch

Modelling conventions:
  * grid coordinates are exact integers (the JS code only ever produces integer
    coordinates from integer inputs, all arithmetic being +, -, * on them);
  * JS numbers produced by the two divisions (the heuristic and the estimator)
    are modelled by exact rationals (`JNum`, an unreduced fraction: the
    magnitudes the program produces are far below the range where IEEE-754
    doubles lose exactness of these comparisons);
  * JS exceptions are modelled by `Except JsErr`; a JS `TypeError` raised by a
    property access on `undefined` is `JsErr.typeError`;
  * the search is given explicit fuel; `none` means the fuel ran out before the
    while-loop of `bestFirstGraphSearch` finished.
-/

/-- The observable error outcomes of the JS code: a thrown `TypeError`
(property access on `undefined`), the `'Unsupported rotation'` error of
`Figure.rotate` and the `'Unknown figure type'` error of
`TetrisFigure.factory`. -/
inductive JsErr : Type where
  | typeError
  | unsupportedRotation
  | unknownFigureType
deriving DecidableEq

/-- An exact rational, kept as an unreduced fraction. Every denominator the
embedded program builds is positive (the programs divide only by list
lengths of nonempty lists and multiply such denominators), for which `ble`
below is the rational order. -/
structure JNum where
  num : Int
  den : Int
deriving DecidableEq

def JNum.ofInt (n : Int) : JNum := ⟨n, 1⟩

def JNum.add (a b : JNum) : JNum := ⟨a.num * b.den + b.num * a.den, a.den * b.den⟩

def JNum.neg (a : JNum) : JNum := ⟨-a.num, a.den⟩

def JNum.div (a b : JNum) : JNum := ⟨a.num * b.den, a.den * b.num⟩

/-- The order `a ≤ b`, by cross multiplication (valid for the positive
denominators the program produces). -/
def JNum.ble (a b : JNum) : Bool := decide (a.num * b.den ≤ b.num * a.den)

/-- A grid coordinate pair (x, y), exactly as stored in one row of the
`r x 2` matrix `Figure.m` of src/script.js. -/
abbrev Point := Int × Int

def padd (a b : Point) : Point := (a.1 + b.1, a.2 + b.2)

def psub (a b : Point) : Point := (a.1 - b.1, a.2 - b.2)

/-- `Figure` of src/script.js (lines 18-173): the `r x 2` matrix of coordinate
pairs is `pts` (rows kept in order), `c` is the index of the pair designated as
the center. `clone` is the identity on this value representation. -/
structure Fig where
  pts : List Point
  c : Nat
deriving DecidableEq

/-- Reading row `n` of the coordinate matrix, as `Figure.getCenter` does with
`this.m.get(this.c, 0/1)` (src/script.js lines 85-89). Every figure the
program builds has `c` inside the matrix, so the out-of-range default is
never observable in the embedded program. -/
def getPointAt : List Point → Nat → Point
  | [], _ => (0, 0)
  | p :: _, 0 => p
  | _ :: ps, Nat.succ n => getPointAt ps n

/-- `Figure.getCenter` (src/script.js lines 85-89). -/
def Fig.getCenter (f : Fig) : Point := getPointAt f.pts f.c

/-- `Figure.move(vec)` (src/script.js lines 95-99): add the same vector to
every coordinate pair. -/
def Fig.move (f : Fig) (vec : Point) : Fig :=
  { f with pts := f.pts.map (fun p => padd p vec) }

/-- A 2 x 2 integer matrix, written row by row as in the `rotations` table of
`Figure.rotate` (src/script.js lines 106-120). -/
abbrev Mat2 := (Int × Int) × (Int × Int)

/-- Multiplication of the row vector `p` by the 2 x 2 matrix `R`, which is what
`this.m.multiply(mR)` does to each row of the coordinate matrix
(src/script.js line 137). -/
def rotApply (R : Mat2) (p : Point) : Point :=
  (p.1 * R.1.1 + p.2 * R.2.1, p.1 * R.1.2 + p.2 * R.2.2)

def R90 : Mat2 := ((0, -1), (1, 0))

def R180 : Mat2 := ((-1, 0), (0, -1))

def R270 : Mat2 := ((0, 1), (-1, 0))

/-- The body of `Figure.rotate` after the angle lookup succeeded
(src/script.js lines 127-142): subtract the center from every pair, multiply
each row by `R`, add the center back. -/
def Fig.rotateBy (f : Fig) (R : Mat2) : Fig :=
  let ctr := f.getCenter
  { f with pts := f.pts.map (fun p => padd (rotApply R (psub p ctr)) ctr) }

/-- `Figure.rotate(degree)` (src/script.js lines 105-143): the `rotations`
table has entries only for 90, 180 and 270; any other degree makes the lookup
yield `undefined` and `'Unsupported rotation'` is thrown. -/
def Fig.rotate (f : Fig) (degree : Int) : Except JsErr Fig :=
  if degree = 90 then .ok (f.rotateBy R90)
  else if degree = 180 then .ok (f.rotateBy R180)
  else if degree = 270 then .ok (f.rotateBy R270)
  else .error .unsupportedRotation

/-- `Figure.translate(vec)` (src/script.js lines 150-165): subtract the current
center from every pair, then add the new center `vec` to every pair. -/
def Fig.translate (f : Fig) (vec : Point) : Fig :=
  let ctr := f.getCenter
  { f with pts := f.pts.map (fun p => padd (psub p ctr) vec) }

/-- `TetrisFigure.id` (src/script.js lines 180-182): the row-major flat data of
the coordinate matrix. The JS value is the string `'[' + String(m.data) + ']'`;
comma-separated decimal integers are recovered uniquely from that string, so
equality of the strings is equality of these flat integer lists. -/
def figId (f : Fig) : List Int := f.pts.flatMap (fun p => [p.1, p.2])

/-- `TetrisFigure.factory` (src/script.js lines 187-248): the seven canonical
point templates with their center indices. -/
def TetrisFigure.factory (type : String) : Except JsErr Fig :=
  if type = "I" then .ok ⟨[(0, 0), (0, 1), (0, 2), (0, 3)], 1⟩
  else if type = "O" then .ok ⟨[(0, 0), (1, 0), (1, 1), (0, 1)], 0⟩
  else if type = "L" then .ok ⟨[(0, 0), (0, 1), (0, 2), (1, 2)], 1⟩
  else if type = "J" then .ok ⟨[(1, 0), (1, 1), (1, 2), (0, 2)], 1⟩
  else if type = "S" then .ok ⟨[(0, 1), (1, 1), (1, 0), (2, 0)], 1⟩
  else if type = "Z" then .ok ⟨[(0, 0), (1, 0), (1, 1), (2, 1)], 2⟩
  else if type = "T" then .ok ⟨[(0, 1), (1, 0), (1, 1), (2, 1)], 2⟩
  else .error .unknownFigureType

/-- The three cell states `TetrisWorld.THING` (src/script.js lines 445-449). -/
def EMPTY_SPACE : Int := 0

def WALL : Int := 1

def FIGURE_MARK : Int := 2

/-- `TetrisWorld` (src/script.js lines 261-443): the `height x width`
occupancy matrix, row-major. -/
structure World where
  rows : List (List Int)
deriving DecidableEq

/-- `TetrisWorld.width`: `this.m.shape[1]` (src/script.js lines 271-273). -/
def World.width (w : World) : Nat := (w.rows.headD []).length

/-- `TetrisWorld.height`: `this.m.shape[0]` (src/script.js lines 277-279). -/
def World.height (w : World) : Nat := w.rows.length

/-- `TetrisWorld.get(x, y)` = `this.m.get(y, x)` (src/script.js lines 291-293).
Callers only read cells that passed `inRangePoint`, so the defaults for an
out-of-range index are never observable in the embedded program. -/
def World.get (w : World) (x y : Int) : Int :=
  (w.rows.getD y.toNat []).getD x.toNat 0

/-- One `this.m.set(y, x, v)` step (src/script.js lines 303 and 315). -/
def World.setCell (w : World) (x y v : Int) : World :=
  { rows := w.rows.set y.toNat ((w.rows.getD y.toNat []).set x.toNat v) }

/-- `TetrisWorld.inRangePoint(vec)` (src/script.js lines 350-357). -/
def World.inRangePoint (w : World) (p : Point) : Bool :=
  decide (0 ≤ p.1) && decide (p.1 ≤ (w.width : Int) - 1) &&
  decide (0 ≤ p.2) && decide (p.2 ≤ (w.height : Int) - 1)

/-- `TetrisWorld.inRange(figure)` (src/script.js lines 341-344): both corners
of `figure.getBounds()` must be in range. `getBounds` (lines 63-80) takes
`Math.min`/`Math.max` over the coordinates; for an empty point list those
spreads give `Infinity`/`-Infinity` and `inRangePoint` is false, which the
`[] => false` branch mirrors. -/
def World.inRange (w : World) (figure : Fig) : Bool :=
  match figure.pts with
  | [] => false
  | p :: ps =>
    let xMin := ps.foldl (fun a q => min a q.1) p.1
    let yMin := ps.foldl (fun a q => min a q.2) p.2
    let xMax := ps.foldl (fun a q => max a q.1) p.1
    let yMax := ps.foldl (fun a q => max a q.2) p.2
    w.inRangePoint (xMin, yMin) && w.inRangePoint (xMax, yMax)

/-- `TetrisWorld.mayLocate(figure)` (src/script.js lines 324-335). The JS
builds a sparse array `things`, writing `things[i]` only for the points that
are in range, and `Array.prototype.every` skips the unassigned holes; so the
values inspected are exactly the cells under the in-range points, in order,
which is this `filterMap`. -/
def World.mayLocate (w : World) (figure : Fig) : Bool :=
  (figure.pts.filterMap
      (fun p => if w.inRangePoint p then some (w.get p.1 p.2) else none)).all
    (fun v => v == EMPTY_SPACE)

/-- `TetrisWorld.locate(figure)` (src/script.js lines 311-318): mark the cell
under every in-range point of the figure as FIGURE. -/
def World.locate (w : World) (figure : Fig) : World :=
  figure.pts.foldl
    (fun acc p => if acc.inRangePoint p then acc.setCell p.1 p.2 FIGURE_MARK else acc) w

/-- `TetrisWorld.dislocate(figure)` (src/script.js lines 299-306): clear the
cell under every in-range point of the figure back to EMPTY_SPACE. -/
def World.dislocate (w : World) (figure : Fig) : World :=
  figure.pts.foldl
    (fun acc p => if acc.inRangePoint p then acc.setCell p.1 p.2 EMPTY_SPACE else acc) w

/-- One `map.set(id(x), x)` step of `TetrisProblemSolver.unique`
(src/script.js lines 668-674): a JS `Map` keeps the first-insertion position
of a key and replaces its value on a later `set`. -/
def mapSet {α β : Type} [DecidableEq β] (m : List (β × α)) (k : β) (v : α) :
    List (β × α) :=
  if m.any (fun e => decide (e.1 = k)) then
    m.map (fun e => if e.1 = k then (k, v) else e)
  else m ++ [(k, v)]

/-- `TetrisProblemSolver.unique(items, id)` (src/script.js lines 668-674):
insert every item into a `Map` keyed by `id`, then list the values in key
insertion order. -/
def unique {α β : Type} [DecidableEq β] (items : List α) (idf : α → β) : List α :=
  (items.foldl (fun acc x => mapSet acc (idf x) x) []).map (fun e => e.2)

/-- `TetrisProblemSolver.getPermutationsOfFigureAtPoint(figure, vec)`
(src/script.js lines 511-521): translate a clone so its center is at `vec`,
then that pose and its three clones rotated by 90, 180, 270 (each rotation
call takes the corresponding ok branch of `Figure.rotate`). -/
def getPermutationsOfFigureAtPoint (figure : Fig) (vec : Point) : List Fig :=
  let a := figure.translate vec
  [a, a.rotateBy R90, a.rotateBy R180, a.rotateBy R270]

/-- `TetrisProblemSolver.getPermutationsOfFigureAtPoints(figure, points)`
(src/script.js lines 528-542): the four permutations at every point, in point
order, then de-duplicated by the id string. -/
def getPermutationsOfFigureAtPoints (figure : Fig) (points : List Point) : List Fig :=
  unique (points.flatMap (fun p => getPermutationsOfFigureAtPoint figure p)) figId

/-- `TetrisProblemSolver.getLocatableStatesOnly(world, states)`
(src/script.js lines 548-552). -/
def getLocatableStatesOnly (w : World) (states : List Fig) : List Fig :=
  states.filter (fun figure => w.inRange figure && w.mayLocate figure)

/-- `TetrisProblemSolver.estimateLocationOfFigure(world, goal, test)`
(src/script.js lines 560-584). The `goal` parameter is accepted but unused,
as in the source. The source mutates the world with a paired
`locate`/`dislocate`; every caller passes a `test` that satisfies
`mayLocate`, for which the pair restores the world exactly, so the estimate
is modelled as a pure function of the incoming world. -/
def estimateLocationOfFigure (w : World) (_goal test : Fig) : JNum :=
  let points := test.pts
  let variants := points.flatMap
    (fun p => [(p.1 + 1, p.2), (p.1 - 1, p.2), (p.1, p.2 + 1), (p.1, p.2 - 1)])
  let uniq := unique variants (fun p => p)
  let allThings := uniq.filter (fun p => w.inRangePoint p)
  let located := w.locate test
  let notEmptyThingsCount :=
    (allThings.filter (fun p => !(located.get p.1 p.2 == EMPTY_SPACE))).length
  let ySum := (points.map (fun p => p.2)).sum
  JNum.add
    (JNum.div (JNum.ofInt notEmptyThingsCount) (JNum.ofInt allThings.length))
    (JNum.div (JNum.ofInt ySum) (JNum.ofInt points.length))

/-- `TetrisProblemSolver.distanceManhattanBetweenPoints` (src/script.js
lines 591-593). -/
def distanceManhattanBetweenPoints (p1 p2 : Point) : Int :=
  (p1.1 - p2.1).natAbs + (p1.2 - p2.2).natAbs

/-- `TetrisProblemSolver.distanceManhattanBetweenFigures` (src/script.js
lines 600-609): the pairwise point distances (by index), averaged. All the
figures the search compares carry the same number of points. -/
def distanceManhattanBetweenFigures (f1 f2 : Fig) : JNum :=
  let k := (List.zipWith distanceManhattanBetweenPoints f1.pts f2.pts).sum
  JNum.div (JNum.ofInt k) (JNum.ofInt f1.pts.length)

/-- `GraphNode` (src/unnamed/part_001 lines 73-78): the constructor takes
only `state`; `pathCost` is set to 0 and no `parent` property is ever
assigned, so reading `parent` on any node yields `undefined`. -/
structure GraphNode where
  state : Fig
  pathCost : JNum
deriving DecidableEq

/-- The `new GraphNode(...)` call. The call sites in src/script.js pass up to
three arguments (`state, parent, pathCost`, lines 617 and 642), but the
constructor declares only `state` and ignores the rest. -/
def GraphNode.construct (state : Fig) : GraphNode :=
  { state := state, pathCost := JNum.ofInt 0 }

/-- One entry of `PriorityQueue.__queue` (src/unnamed/part_001 line 31):
the triple `[f(item), id(item), item]`, where the stored `f` of a
min-ordered queue is the negated estimate. -/
structure QEntry where
  cost : JNum
  id : List Int
  node : GraphNode
deriving DecidableEq

/-- The queue entry `[-(pathCost + h(item)), id(item), item]` appended by the
search: `astarGraphSearch` passes `f = n => n.pathCost + h(n)`
(src/unnamed/part_001 line 135) with the `h` and `id` of
`findPathFromCurrentStateToGoalState` (src/script.js lines 620-625), and a
min-ordered `PriorityQueue` stores `-f` (src/unnamed/part_001 line 14). -/
def mkEntry (goalF : Fig) (n : GraphNode) : QEntry :=
  { cost := JNum.neg (JNum.add n.pathCost (distanceManhattanBetweenFigures n.state goalF)),
    id := figId n.state,
    node := n }

/-- `PriorityQueue.append` (src/unnamed/part_001 lines 29-33): push the entry,
then re-sort ascending by stored cost with a stable sort. The queue is sorted
before every `append`, so the stable sort places the new entry after all
entries of less-or-equal cost and before the strictly greater ones. -/
def pqInsert (e : QEntry) : List QEntry → List QEntry
  | [] => [e]
  | q :: qs => if JNum.ble q.cost e.cost then q :: pqInsert e qs else e :: q :: qs

/-- `PriorityQueue.contains(item)` (src/unnamed/part_001 lines 38-41),
with the item id already computed. -/
def pqContains (q : List QEntry) (i : List Int) : Bool :=
  q.any (fun e => decide (e.id = i))

/-- `PriorityQueue.pop` (src/unnamed/part_001 lines 59-62): remove and return
the last entry, the one of minimal estimate. The loop only pops after
checking `frontier.length()`. -/
def pqPop : List QEntry → Option (QEntry × List QEntry)
  | [] => none
  | [e] => some (e, [])
  | e :: e' :: rest =>
    match pqPop (e' :: rest) with
    | some (x, r) => some (x, e :: r)
    | none => none

/-- The body of the successor loop of `bestFirstGraphSearch`
(src/unnamed/part_001 lines 108-117) for a single child, specialized to the
options built in `findPathFromCurrentStateToGoalState`. In the second branch
`frontier.get(child)` returns the raw queue entry `[cost, id, item]`
(src/unnamed/part_001 lines 45-49), and `f(incumbent)` with
`f = n => n.pathCost + h(n)` reads `incumbent.pathCost` (undefined) and calls
`h(incumbent)`, which reads `incumbent.state` (undefined) and invokes
`.toArray()` on it (src/script.js line 601): a TypeError is thrown. -/
def processChild (goalF : Fig) (explored : List (List Int))
    (frontier : List QEntry) (child : GraphNode) : Except JsErr (List QEntry) :=
  if !(explored.contains (figId child.state)) &&
      !(pqContains frontier (figId child.state)) then
    .ok (pqInsert (mkEntry goalF child) frontier)
  else if pqContains frontier (figId child.state) then
    .error .typeError
  else
    .ok frontier

/-- The `for (const child of getSuccessorsOf(node))` loop
(src/unnamed/part_001 lines 108-117), threading the frontier through
`processChild` and propagating a thrown error. -/
def processChildren (goalF : Fig) (explored : List (List Int)) :
    List QEntry → List GraphNode → Except JsErr (List QEntry)
  | frontier, [] => .ok frontier
  | frontier, c :: cs =>
    match processChild goalF explored frontier c with
    | .error e => .error e
    | .ok frontier' => processChildren goalF explored frontier' cs

/-- `getSuccessorsOf` of the options object built in
`findPathFromCurrentStateToGoalState` (src/script.js lines 629-645): shift
up, left, right (down is commented out in the source), plus the four
translate-and-rotate poses at the figure's own center; keep the locatable
ones; wrap each in a `GraphNode`. Line 642 passes `(state, node,
node.pathCost + 1)` to the constructor, which ignores the last two
arguments. -/
def getSuccessorsOf (w : World) (node : GraphNode) : List GraphNode :=
  let figure := node.state
  let untrustedStates :=
    [figure.move (0, -1), figure.move (-1, 0), figure.move (1, 0)] ++
      getPermutationsOfFigureAtPoint figure figure.getCenter
  let states := getLocatableStatesOnly w untrustedStates
  states.map (fun state => GraphNode.construct state)

/-- The while-loop of `bestFirstGraphSearch` (src/unnamed/part_001
lines 101-119), with explicit fuel: `none` means the fuel ran out,
`some (.ok none)` is the `return null` after the frontier emptied,
`some (.ok (some g))` is the goal node, `some (.error e)` a thrown error. -/
def bestFirstLoop (w : World) (goalF : Fig) :
    Nat → List QEntry → List (List Int) → Option (Except JsErr (Option GraphNode))
  | 0, _, _ => none
  | Nat.succ fuel, frontier, explored =>
    match pqPop frontier with
    | none => some (.ok none)
    | some (entry, rest) =>
      let node := entry.node
      if figId node.state = figId goalF then some (.ok (some node))
      else
        let explored' :=
          if explored.contains (figId node.state) then explored
          else explored ++ [figId node.state]
        match processChildren goalF explored' rest (getSuccessorsOf w node) with
        | .error e => some (.error e)
        | .ok frontier' => bestFirstLoop w goalF fuel frontier' explored'

/-- `astarGraphSearch` applied to the options of
`findPathFromCurrentStateToGoalState` (src/unnamed/part_001 lines 90-137):
`bestFirstGraphSearch` first returns the root if it already satisfies the
goal test, otherwise appends it to a fresh frontier and runs the loop. -/
def astarGraphSearch (w : World) (goalF : Fig) (root : GraphNode) (fuel : Nat) :
    Option (Except JsErr (Option GraphNode)) :=
  if figId root.state = figId goalF then some (.ok (some root))
  else bestFirstLoop w goalF fuel (pqInsert (mkEntry goalF root) []) []

/-- `TetrisProblemSolver.findPathFromCurrentStateToGoalState`
(src/script.js lines 616-662). When the search returns a goal node, the
backtrace loop `for (let node = goal; node !== null; node = node.parent)`
pushes `goal.state` and then sets `node` to `goal.parent`; `GraphNode` never
assigns a `parent` property, so that read yields `undefined`; since
`undefined !== null` holds, the loop body runs again and `node.state` is a
property access on `undefined`: a TypeError is thrown. -/
def findPathFromCurrentStateToGoalState (w : World) (currentState goalState : Fig)
    (fuel : Nat) : Option (Except JsErr (List Fig)) :=
  match astarGraphSearch w goalState (GraphNode.construct currentState) fuel with
  | none => none
  | some (.error e) => some (.error e)
  | some (.ok none) => some (.ok [])
  | some (.ok (some _)) => some (.error .typeError)

/-- A stable insertion step: `x` goes after every earlier element `y` with
`le y x`. Folding it over a list from the left is the stable sort the JS
engines implement for `Array.prototype.sort`. -/
def insertBy {α : Type} (le : α → α → Bool) (x : α) : List α → List α
  | [] => [x]
  | y :: ys => if le y x then y :: insertBy le x ys else x :: y :: ys

/-- Stable sort by the relation `le` (`le y x` = `y` may stay before `x`). -/
def sortBy {α : Type} (le : α → α → Bool) (l : List α) : List α :=
  l.foldl (fun acc x => insertBy le x acc) []

/-- The `for (const state of states)` loop of `TetrisProblemSolver.solve`
(src/script.js lines 492-500): run the path search to each ranked candidate;
a non-empty path is returned, an empty one falls through to the next
candidate, a thrown error propagates. -/
def tryStates (w : World) (goalFig : Fig) (fuel : Nat) :
    List Fig → Option (Except JsErr (Option (List Fig)))
  | [] => some (.ok none)
  | s :: ss =>
    match findPathFromCurrentStateToGoalState w s goalFig fuel with
    | none => none
    | some (.error e) => some (.error e)
    | some (.ok p) =>
      if p.length > 0 then some (.ok (some p)) else tryStates w goalFig fuel ss

/-- The row scan of `TetrisProblemSolver.solve` (src/script.js lines 461-501),
for a given descending list of row indices: collect the row's empty cells,
generate and filter the candidate poses, skip the row when none are
locatable, otherwise rank them by descending estimate
(`states.sort((a, b) => estB - estA)`, a stable sort) and try them in
order. -/
def solveScan (w : World) (figure : Fig) (fuel : Nat) :
    List Int → Option (Except JsErr (List Fig))
  | [] => some (.ok [])
  | y :: ys =>
    let row := (List.range w.width).map (fun x => ((x : Int), y))
    let cells := row.filter (fun p => w.get p.1 p.2 == EMPTY_SPACE)
    let untrustedStates := getPermutationsOfFigureAtPoints figure cells
    let states := getLocatableStatesOnly w untrustedStates
    if states.isEmpty then solveScan w figure fuel ys
    else
      let sorted := sortBy
        (fun a b =>
          JNum.ble (estimateLocationOfFigure w figure b) (estimateLocationOfFigure w figure a))
        states
      match tryStates w figure fuel sorted with
      | none => none
      | some (.error e) => some (.error e)
      | some (.ok (some p)) => some (.ok p)
      | some (.ok none) => solveScan w figure fuel ys

/-- `TetrisProblemSolver.solve(world, figure)` (src/script.js lines 457-504):
scan the rows from `height - 1` down to `0`; if no row produced a path,
return the empty plan. -/
def solve (w : World) (figure : Fig) (fuel : Nat) : Option (Except JsErr (List Fig)) :=
  solveScan w figure fuel ((List.range w.height).reverse.map (fun y => (y : Int)))

/-! Concrete inputs used by the counterexample evaluations and witnesses. -/

/-- The "O" figure of `TetrisFigure.factory` (src/script.js lines 197-204). -/
def figureO : Fig := ⟨[(0, 0), (1, 0), (1, 1), (0, 1)], 0⟩

/-- A 3-row, 2-column, all-empty world. -/
def w23 : World := ⟨[[0, 0], [0, 0], [0, 0]]⟩

/-- The O figure one row below its spawn pose in `w23` (its goal pose there
is `figureO`, one shift up away). -/
def curO : Fig := ⟨[(0, 1), (1, 1), (1, 2), (0, 2)], 0⟩

/-- A 4 x 4 all-empty world (end-to-end scenario 1 of the spec). -/
def w44 : World := ⟨[[0, 0, 0, 0], [0, 0, 0, 0], [0, 0, 0, 0], [0, 0, 0, 0]]⟩

/-- A 3 x 3 all-empty world. -/
def w33 : World := ⟨[[0, 0, 0], [0, 0, 0], [0, 0, 0]]⟩

/-- The O figure shifted entirely above the grid: every point has a negative
row index, so no in-range pose shares its id and no search can reach it. -/
def figOAbove : Fig := ⟨[(0, -5), (1, -5), (1, -4), (0, -4)], 0⟩

/-- The key discipline of the JS `Map` inside `unique`: every stored key is
the id of its stored value, and the keys are pairwise distinct. -/
def KeyInv {α β : Type} (idf : α → β) (m : List (β × α)) : Prop :=
  (∀ e ∈ m, e.1 = idf e.2) ∧ m.Pairwise (fun e1 e2 => e1.1 ≠ e2.1)

/-- Invariant carried through the best-first loop for claim C10: every node
sitting in the frontier has the root's center index and a center row at or
above the root's. -/
def FrontierBound (rootF : Fig) (frontier : List QEntry) : Prop :=
  ∀ e ∈ frontier,
    e.node.state.c = rootF.c ∧ (e.node.state.getCenter).2 ≤ (rootF.getCenter).2

/-! Helper lemmas. -/

theorem psub_self (p : Point) : psub p p = (0, 0) := by
  simp [psub]

theorem padd_psub_cancel (p c : Point) : padd (psub p c) c = p := by
  simp [padd, psub]

theorem rotApply_zero (R : Mat2) : rotApply R (0, 0) = (0, 0) := by
  simp [rotApply]

theorem psub_padd_cancel (v c : Point) : psub (padd v c) c = v := by
  simp [padd, psub]

theorem rot90_270 (p : Point) : rotApply R270 (rotApply R90 p) = p := by
  obtain ⟨x, y⟩ := p
  simp [rotApply, R90, R270]

theorem rot180_180 (p : Point) : rotApply R180 (rotApply R180 p) = p := by
  obtain ⟨x, y⟩ := p
  simp [rotApply, R180]

theorem rot270_90 (p : Point) : rotApply R90 (rotApply R270 p) = p := by
  obtain ⟨x, y⟩ := p
  simp [rotApply, R90, R270]

theorem getPointAt_map (φ : Point → Point) (l : List Point) (n : Nat) :
    getPointAt (l.map φ) n = if n < l.length then φ (getPointAt l n) else (0, 0) := by
  induction l generalizing n with
  | nil => simp [getPointAt]
  | cons p ps ih =>
    cases n with
    | zero => simp [getPointAt]
    | succ m =>
      simp only [List.map_cons, getPointAt, ih, List.length_cons]
      by_cases h : m < ps.length
      · rw [if_pos h, if_pos (by omega)]
      · rw [if_neg h, if_neg (by omega)]

theorem getPointAt_ge (l : List Point) (n : Nat) (h : l.length ≤ n) :
    getPointAt l n = (0, 0) := by
  induction l generalizing n with
  | nil => simp [getPointAt]
  | cons p ps ih =>
    cases n with
    | zero => simp at h
    | succ m => exact ih m (by simpa using h)

theorem getCenter_rotateBy (f : Fig) (R : Mat2) :
    (f.rotateBy R).getCenter = f.getCenter := by
  unfold Fig.rotateBy Fig.getCenter
  simp only [getPointAt_map]
  by_cases h : f.c < f.pts.length
  · rw [if_pos h, psub_self, rotApply_zero]
    simp [padd]
  · rw [if_neg h, getPointAt_ge _ _ (by omega)]

theorem getCenter_move_y (f : Fig) (vec : Point) (hv : vec.2 ≤ 0) :
    ((f.move vec).getCenter).2 ≤ (f.getCenter).2 := by
  unfold Fig.move Fig.getCenter
  simp only [getPointAt_map]
  by_cases h : f.c < f.pts.length
  · rw [if_pos h]; simp [padd]; omega
  · rw [if_neg h, getPointAt_ge _ _ (by omega)]

theorem translate_self (f : Fig) : f.translate f.getCenter = f := by
  obtain ⟨pts, c⟩ := f
  unfold Fig.translate
  simp [padd_psub_cancel, List.map_id]

theorem rotateBy_rotateBy_cancel (f : Fig) (R S : Mat2)
    (hRS : ∀ p : Point, rotApply S (rotApply R p) = p) :
    (f.rotateBy R).rotateBy S = f := by
  have hc : (f.rotateBy R).getCenter = f.getCenter := getCenter_rotateBy f R
  obtain ⟨pts, c⟩ := f
  unfold Fig.rotateBy at hc ⊢
  simp only at hc ⊢
  rw [hc, List.map_map]
  congr 1
  refine (List.map_congr_left fun p _ => ?_).trans (List.map_id pts)
  simp only [Function.comp_apply, id_eq]
  rw [psub_padd_cancel, hRS, padd_psub_cancel]

theorem flatMap_pair_inj : ∀ l1 l2 : List Point,
    l1.flatMap (fun p => [p.1, p.2]) = l2.flatMap (fun p => [p.1, p.2]) → l1 = l2 := by
  intro l1
  induction l1 with
  | nil =>
    intro l2 h
    cases l2 with
    | nil => rfl
    | cons q qs => simp [List.flatMap_cons] at h
  | cons p ps ih =>
    intro l2 h
    cases l2 with
    | nil => simp [List.flatMap_cons] at h
    | cons q qs =>
      simp only [List.flatMap_cons, List.cons_append, List.nil_append,
        List.cons.injEq] at h
      obtain ⟨h1, h2, h3⟩ := h
      rw [ih qs h3]
      congr 1
      exact Prod.ext h1 h2

theorem figId_eq_pts {a b : Fig} (h : figId a = figId b) : a.pts = b.pts :=
  flatMap_pair_inj a.pts b.pts h

theorem mapSet_length_le {α β : Type} [DecidableEq β] (m : List (β × α)) (k : β) (v : α) :
    (mapSet m k v).length ≤ m.length + 1 := by
  unfold mapSet
  split
  · simp
  · simp

theorem unique_foldl_length {α β : Type} [DecidableEq β] (idf : α → β) (items : List α) :
    ∀ acc : List (β × α),
      (items.foldl (fun m x => mapSet m (idf x) x) acc).length ≤ acc.length + items.length := by
  induction items with
  | nil => intro acc; simp
  | cons x xs ih =>
    intro acc
    simp only [List.foldl_cons, List.length_cons]
    calc (xs.foldl (fun m x => mapSet m (idf x) x) (mapSet acc (idf x) x)).length
        ≤ (mapSet acc (idf x) x).length + xs.length := ih _
      _ ≤ acc.length + 1 + xs.length := by
          have := mapSet_length_le acc (idf x) x; omega
      _ = acc.length + (xs.length + 1) := by omega

theorem unique_length_le {α β : Type} [DecidableEq β] (items : List α) (idf : α → β) :
    (unique items idf).length ≤ items.length := by
  unfold unique
  rw [List.length_map]
  simpa using unique_foldl_length idf items []

theorem mapSet_keyInv {α β : Type} [DecidableEq β] {idf : α → β} {m : List (β × α)}
    (h : KeyInv idf m) (x : α) : KeyInv idf (mapSet m (idf x) x) := by
  obtain ⟨h1, h2⟩ := h
  unfold mapSet
  split
  · constructor
    · intro e he
      rw [List.mem_map] at he
      obtain ⟨e', he', rfl⟩ := he
      split
      · simp
      · exact h1 e' he'
    · rw [List.pairwise_map]
      refine h2.imp ?_
      intro e1 e2 hne
      have k1 : (if e1.1 = idf x then ((idf x : β), x) else e1).1 = e1.1 := by
        split <;> simp [*]
      have k2 : (if e2.1 = idf x then ((idf x : β), x) else e2).1 = e2.1 := by
        split <;> simp [*]
      rw [k1, k2]; exact hne
  · next hany =>
    have hnone : ∀ e ∈ m, ¬(e.1 = idf x) := by
      intro e he heq
      exact hany (List.any_eq_true.2 ⟨e, he, by simp [heq]⟩)
    constructor
    · intro e he
      rw [List.mem_append] at he
      rcases he with he | he
      · exact h1 e he
      · simp only [List.mem_singleton] at he
        subst he; rfl
    · rw [List.pairwise_append]
      refine ⟨h2, by simp, ?_⟩
      intro e1 he1 e2 he2
      simp only [List.mem_singleton] at he2
      subst he2
      simpa using hnone e1 he1

theorem foldl_keyInv {α β : Type} [DecidableEq β] (idf : α → β) (items : List α) :
    ∀ acc : List (β × α), KeyInv idf acc →
      KeyInv idf (items.foldl (fun m x => mapSet m (idf x) x) acc) := by
  induction items with
  | nil => intro acc h; simpa using h
  | cons x xs ih =>
    intro acc h
    simp only [List.foldl_cons]
    exact ih _ (mapSet_keyInv h x)

theorem unique_pairwise {α β : Type} [DecidableEq β] (items : List α) (idf : α → β) :
    (unique items idf).Pairwise (fun a b => idf a ≠ idf b) := by
  unfold unique
  have h := foldl_keyInv idf items [] ⟨by simp, by simp⟩
  obtain ⟨h1, h2⟩ := h
  rw [List.pairwise_map]
  refine List.Pairwise.imp_of_mem ?_ h2
  intro e1 e2 he1 he2 hne
  rw [← h1 e1 he1, ← h1 e2 he2]
  exact hne

theorem pqInsert_mem {e x : QEntry} : ∀ {q : List QEntry}, e ∈ pqInsert x q → e = x ∨ e ∈ q := by
  intro q
  induction q with
  | nil => intro h; simpa [pqInsert] using h
  | cons y ys ih =>
    intro h
    unfold pqInsert at h
    split at h
    · rcases List.mem_cons.1 h with h' | h'
      · exact Or.inr (h' ▸ List.mem_cons_self y ys)
      · rcases ih h' with h'' | h''
        · exact Or.inl h''
        · exact Or.inr (List.mem_cons_of_mem y h'')
    · rcases List.mem_cons.1 h with h' | h'
      · exact Or.inl h'
      · exact Or.inr h'

theorem pqPop_mem : ∀ {q : List QEntry} {x : QEntry} {r : List QEntry},
    pqPop q = some (x, r) → x ∈ q ∧ ∀ y ∈ r, y ∈ q := by
  intro q
  induction q with
  | nil => intro x r h; simp [pqPop] at h
  | cons e qs ih =>
    intro x r h
    cases qs with
    | nil =>
      simp only [pqPop, Option.some.injEq, Prod.mk.injEq] at h
      obtain ⟨rfl, rfl⟩ := h
      exact ⟨List.mem_cons_self e [], by simp⟩
    | cons e' rest =>
      simp only [pqPop] at h
      cases hp : pqPop (e' :: rest) with
      | none => rw [hp] at h; cases h
      | some pr =>
        obtain ⟨x', r'⟩ := pr
        rw [hp] at h
        simp only [Option.some.injEq, Prod.mk.injEq] at h
        obtain ⟨rfl, rfl⟩ := h
        obtain ⟨hx, hr⟩ := ih hp
        refine ⟨List.mem_cons_of_mem e hx, ?_⟩
        intro y hy
        rcases List.mem_cons.1 hy with rfl | hy'
        · exact List.mem_cons_self y _
        · exact List.mem_cons_of_mem e (hr y hy')

theorem processChildren_ok_mem (goalF : Fig) (expl : List (List Int)) :
    ∀ (cs : List GraphNode) (fr fr' : List QEntry),
      processChildren goalF expl fr cs = .ok fr' →
      ∀ e ∈ fr', e ∈ fr ∨ e.node ∈ cs := by
  intro cs
  induction cs with
  | nil =>
    intro fr fr' h e he
    simp only [processChildren] at h
    cases h
    exact Or.inl he
  | cons c cs ih =>
    intro fr fr' h e he
    simp only [processChildren] at h
    cases hpc : processChild goalF expl fr c with
    | error err => rw [hpc] at h; cases h
    | ok f1 =>
      rw [hpc] at h
      rcases ih f1 fr' h e he with h1 | h1
      · unfold processChild at hpc
        split at hpc
        · cases hpc
          rcases pqInsert_mem h1 with rfl | h2
          · exact Or.inr (List.mem_cons_self _ _)
          · exact Or.inl h2
        · split at hpc
          · cases hpc
          · cases hpc
            exact Or.inl h1
      · exact Or.inr (List.mem_cons_of_mem c h1)

theorem succ_state_bound (w : World) (n s : GraphNode) (hs : s ∈ getSuccessorsOf w n) :
    s.state.c = n.state.c ∧ (s.state.getCenter).2 ≤ (n.state.getCenter).2 := by
  unfold getSuccessorsOf at hs
  rw [List.mem_map] at hs
  obtain ⟨st, hst, rfl⟩ := hs
  unfold getLocatableStatesOnly at hst
  rw [List.mem_filter] at hst
  obtain ⟨hmem, _⟩ := hst
  simp only [getPermutationsOfFigureAtPoint, List.mem_append, List.mem_cons,
    List.mem_singleton, List.not_mem_nil, or_false] at hmem
  have htr : n.state.translate n.state.getCenter = n.state := translate_self n.state
  rcases hmem with (rfl | rfl | rfl) | rfl | rfl | rfl | rfl
  · exact ⟨rfl, getCenter_move_y n.state (0, -1) (by norm_num)⟩
  · exact ⟨rfl, getCenter_move_y n.state (-1, 0) (by norm_num)⟩
  · exact ⟨rfl, getCenter_move_y n.state (1, 0) (by norm_num)⟩
  · rw [htr]; exact ⟨rfl, le_refl _⟩
  · rw [htr]
    exact ⟨rfl, le_of_eq (congrArg Prod.snd (getCenter_rotateBy n.state R90))⟩
  · rw [htr]
    exact ⟨rfl, le_of_eq (congrArg Prod.snd (getCenter_rotateBy n.state R180))⟩
  · rw [htr]
    exact ⟨rfl, le_of_eq (congrArg Prod.snd (getCenter_rotateBy n.state R270))⟩

theorem bestFirstLoop_no_goal (w : World) (goalF rootF : Fig)
    (hc : rootF.c = goalF.c) (hlt : (rootF.getCenter).2 < (goalF.getCenter).2) :
    ∀ (k : Nat) (frontier : List QEntry) (explored : List (List Int)),
      FrontierBound rootF frontier →
      ∀ g, bestFirstLoop w goalF k frontier explored ≠ some (.ok (some g)) := by
  intro k
  induction k with
  | zero =>
    intro frontier explored _ g h
    simp [bestFirstLoop] at h
  | succ n ih =>
    intro frontier explored hF g h
    rw [bestFirstLoop] at h
    cases hp : pqPop frontier with
    | none => rw [hp] at h; simp at h
    | some pr =>
      obtain ⟨entry, rest⟩ := pr
      rw [hp] at h
      dsimp only at h
      have hmem := pqPop_mem hp
      have hent := hF entry hmem.1
      by_cases hg : figId entry.node.state = figId goalF
      · have hpts : entry.node.state.pts = goalF.pts := figId_eq_pts hg
        have hcen : (entry.node.state.getCenter).2 = (goalF.getCenter).2 := by
          unfold Fig.getCenter
          rw [hpts, hent.1, hc]
        omega
      · rw [if_neg hg] at h
        cases hpch : processChildren goalF
            (if explored.contains (figId entry.node.state) then explored
             else explored ++ [figId entry.node.state])
            rest (getSuccessorsOf w entry.node) with
        | error e => rw [hpch] at h; simp at h
        | ok frontier' =>
          rw [hpch] at h
          refine ih frontier' _ ?_ g h
          intro e he
          rcases processChildren_ok_mem _ _ _ _ _ hpch e he with h1 | h1
          · exact hF e (hmem.2 e h1)
          · have hsucc := succ_state_bound w entry.node e.node h1
            exact ⟨hsucc.1.trans hent.1, le_trans hsucc.2 hent.2⟩

/-! Claim theorems. -/

/-- C6: `mayLocate` returns true exactly when every point of the figure that
is in bounds lies on an EMPTY cell; in particular it is false whenever some
in-bounds point coincides with a non-EMPTY cell, and true whenever all
in-bounds points are EMPTY, regardless of how many points (possibly all) lie
out of bounds. -/
theorem mayLocate_iff_inbounds_empty (w : World) (figure : Fig) :
    w.mayLocate figure = true ↔
      ∀ p ∈ figure.pts, w.inRangePoint p = true → w.get p.1 p.2 = EMPTY_SPACE := by
  unfold World.mayLocate
  rw [List.all_eq_true]
  constructor
  · intro h p hp hr
    have := h (w.get p.1 p.2) (List.mem_filterMap.2 ⟨p, hp, by rw [hr]; simp⟩)
    simpa [EMPTY_SPACE] using this
  · intro h v hv
    obtain ⟨p, hp, hpv⟩ := List.mem_filterMap.1 hv
    by_cases hr : w.inRangePoint p
    · rw [if_pos hr] at hpv
      have := h p hp hr
      simp only [Option.some.injEq] at hpv
      subst hpv
      simp [this, EMPTY_SPACE]
    · rw [if_neg hr] at hpv
      cases hpv

/-- C9: `Figure.rotate(d)` fails with the unsupported-rotation error for every
angle outside 90, 180, 270 (including 0: nothing is silently normalized), and
succeeds for each of the three supported angles. -/
theorem rotate_angle_spec (figure : Fig) (d : Int) :
    (¬(d = 90 ∨ d = 180 ∨ d = 270) → figure.rotate d = .error .unsupportedRotation) ∧
    ((d = 90 ∨ d = 180 ∨ d = 270) → ∃ g, figure.rotate d = .ok g) := by
  constructor
  · intro h
    push_neg at h
    obtain ⟨h1, h2, h3⟩ := h
    unfold Fig.rotate
    rw [if_neg h1, if_neg h2, if_neg h3]
  · rintro (rfl | rfl | rfl)
    · exact ⟨figure.rotateBy R90, by unfold Fig.rotate; rw [if_pos rfl]⟩
    · exact ⟨figure.rotateBy R180, by unfold Fig.rotate; rw [if_neg (by norm_num), if_pos rfl]⟩
    · exact ⟨figure.rotateBy R270,
        by unfold Fig.rotate; rw [if_neg (by norm_num), if_neg (by norm_num), if_pos rfl]⟩

/-- Witness for C9, at the O figure with angles 45 (rejected) and 90
(accepted). -/
theorem rotate_angle_spec_witness :
    figureO.rotate 45 = .error .unsupportedRotation ∧ ∃ g, figureO.rotate 90 = .ok g :=
  ⟨(rotate_angle_spec figureO 45).1 (by norm_num),
   (rotate_angle_spec figureO 90).2 (by norm_num)⟩

/-- C7: rotating any figure by a supported angle `a` and then by `360 - a`
(both supported calls: 90 then 270, 180 then 180, 270 then 90) restores
exactly the original point sequence - the same ordered list of integer
coordinates. -/
theorem rotate_then_inverse_restores (figure : Fig) (a : Int)
    (h : a = 90 ∨ a = 180 ∨ a = 270) :
    (figure.rotate a).bind (fun g => g.rotate (360 - a)) = .ok figure := by
  rcases h with rfl | rfl | rfl
  · have h1 : figure.rotate 90 = .ok (figure.rotateBy R90) := by
      unfold Fig.rotate; rw [if_pos rfl]
    have h2 : (360 : Int) - 90 = 270 := by norm_num
    rw [h1, h2, Except.bind]
    have h3 : (figure.rotateBy R90).rotate 270 = .ok ((figure.rotateBy R90).rotateBy R270) := by
      unfold Fig.rotate
      rw [if_neg (by norm_num), if_neg (by norm_num), if_pos rfl]
    rw [h3, rotateBy_rotateBy_cancel figure R90 R270 rot90_270]
  · have h1 : figure.rotate 180 = .ok (figure.rotateBy R180) := by
      unfold Fig.rotate; rw [if_neg (by norm_num), if_pos rfl]
    have h2 : (360 : Int) - 180 = 180 := by norm_num
    rw [h1, h2, Except.bind]
    have h3 : (figure.rotateBy R180).rotate 180 = .ok ((figure.rotateBy R180).rotateBy R180) := by
      unfold Fig.rotate; rw [if_neg (by norm_num), if_pos rfl]
    rw [h3, rotateBy_rotateBy_cancel figure R180 R180 rot180_180]
  · have h1 : figure.rotate 270 = .ok (figure.rotateBy R270) := by
      unfold Fig.rotate; rw [if_neg (by norm_num), if_neg (by norm_num), if_pos rfl]
    have h2 : (360 : Int) - 270 = 90 := by norm_num
    rw [h1, h2, Except.bind]
    have h3 : (figure.rotateBy R270).rotate 90 = .ok ((figure.rotateBy R270).rotateBy R90) := by
      unfold Fig.rotate; rw [if_pos rfl]
    rw [h3, rotateBy_rotateBy_cancel figure R270 R90 rot270_90]

/-- Witness for C7, at the O figure with a = 90. -/
theorem rotate_then_inverse_restores_witness :
    (figureO.rotate 90).bind (fun g => g.rotate (360 - 90)) = .ok figureO :=
  rotate_then_inverse_restores figureO 90 (by norm_num)

/-- C8: `getPermutationsOfFigureAtPoints` over N points yields at most 4N
poses, and no two of the returned poses have identical point sequences. -/
theorem permutations_at_points_bounded_nodup (figure : Fig) (points : List Point) :
    (getPermutationsOfFigureAtPoints figure points).length ≤ 4 * points.length ∧
    (getPermutationsOfFigureAtPoints figure points).Pairwise
      (fun a b => a.pts ≠ b.pts) := by
  constructor
  · unfold getPermutationsOfFigureAtPoints
    have hlen : (points.flatMap (fun p => getPermutationsOfFigureAtPoint figure p)).length
        = 4 * points.length := by
      induction points with
      | nil => simp
      | cons p ps ih =>
        simp only [List.flatMap_cons, List.length_append, ih, List.length_cons]
        have : (getPermutationsOfFigureAtPoint figure p).length = 4 := rfl
        rw [this]; ring
    calc (unique (points.flatMap (fun p => getPermutationsOfFigureAtPoint figure p)) figId).length
        ≤ (points.flatMap (fun p => getPermutationsOfFigureAtPoint figure p)).length :=
          unique_length_le _ _
      _ = 4 * points.length := hlen
  · unfold getPermutationsOfFigureAtPoints
    refine (unique_pairwise _ figId).imp ?_
    intro a b hne hab
    exact hne (by unfold figId; rw [hab])

/-- C2: the claim that a child node's accumulated path cost is its parent's
plus one FAILS on the code: the `GraphNode` constructor takes only the state
and sets `pathCost` to 0, silently dropping the `node.pathCost + 1` argument
passed at the call site, so every node created by `getSuccessorsOf` has path
cost 0, not parent cost + 1. -/
theorem successor_pathCost_zero (w : World) (n s : GraphNode)
    (hn : n.pathCost = JNum.ofInt 0) (hs : s ∈ getSuccessorsOf w n) :
    s.pathCost = JNum.ofInt 0 ∧ s.pathCost ≠ JNum.add n.pathCost (JNum.ofInt 1) := by
  have h0 : s.pathCost = JNum.ofInt 0 := by
    unfold getSuccessorsOf at hs
    rw [List.mem_map] at hs
    obtain ⟨st, _, rfl⟩ := hs
    rfl
  refine ⟨h0, ?_⟩
  rw [h0, hn]
  intro hcontra
  simp [JNum.add, JNum.ofInt, JNum.mk.injEq] at hcontra

/-- Witness for C2: in the 3 x 2 empty world, the root at `curO` has a
successor (the O figure shifted up, which is `figureO`) whose path cost is 0
rather than 1. -/
theorem successor_pathCost_zero_witness :
    (GraphNode.construct figureO).pathCost = JNum.ofInt 0 ∧
    (GraphNode.construct figureO).pathCost ≠
      JNum.add (GraphNode.construct curO).pathCost (JNum.ofInt 1) :=
  successor_pathCost_zero w23 (GraphNode.construct curO) (GraphNode.construct figureO)
    rfl (by decide)

/-- C3: the claim that a successor already present in the frontier replaces a
strictly more expensive incumbent (and otherwise leaves the frontier
unchanged) FAILS on the code: whenever `frontier.contains(child)` holds, the
incumbent fetched by `frontier.get` is the raw `[cost, id, item]` queue entry
and evaluating `f(incumbent)` reads `.pathCost`/`.state` of that array, so a
TypeError is thrown before any comparison or replacement can happen. -/
theorem frontier_duplicate_throws (goalF : Fig) (explored : List (List Int))
    (frontier : List QEntry) (child : GraphNode)
    (h : pqContains frontier (figId child.state) = true) :
    processChild goalF explored frontier child = .error .typeError := by
  unfold processChild
  rw [h]
  simp

/-- Witness for C3: a frontier already holding the id of `curO` makes the
child-processing step throw. -/
theorem frontier_duplicate_throws_witness :
    pqContains [mkEntry figureO (GraphNode.construct curO)] (figId curO) = true ∧
    processChild figureO [] [mkEntry figureO (GraphNode.construct curO)]
      (GraphNode.construct curO) = .error .typeError :=
  ⟨rfl, frontier_duplicate_throws figureO [] [mkEntry figureO (GraphNode.construct curO)]
    (GraphNode.construct curO) rfl⟩

/-- C1: the claim that, whenever the path search finds the goal node, the
returned plan is the reversed parent backtrace (root-to-goal order) FAILS on
the code: whenever the search returns a goal node, the backtrace loop reads
the never-assigned `parent` property, gets `undefined` (which is `!== null`)
and throws a TypeError on `undefined.state` - no plan is ever returned, and
no reversal is performed. -/
theorem findPath_goal_found_throws (w : World) (cur goal : Fig) (fuel : Nat)
    (g : GraphNode)
    (h : astarGraphSearch w goal (GraphNode.construct cur) fuel = some (.ok (some g))) :
    findPathFromCurrentStateToGoalState w cur goal fuel = some (.error .typeError) := by
  unfold findPathFromCurrentStateToGoalState
  rw [h]

/-- Witness for C1: in the 3 x 2 empty world the search from `curO` finds the
goal `figureO` (one shift up), and `findPathFromCurrentStateToGoalState`
throws instead of returning the two-pose plan. -/
theorem findPath_goal_found_throws_witness :
    astarGraphSearch w23 figureO (GraphNode.construct curO) 5 =
      some (.ok (some (GraphNode.construct figureO))) ∧
    findPathFromCurrentStateToGoalState w23 curO figureO 5 =
      some (.error .typeError) :=
  ⟨rfl, findPath_goal_found_throws w23 curO figureO 5 (GraphNode.construct figureO) rfl⟩

/-- C4: the claim that `solve` returns an empty plan and never throws when no
path to any candidate exists FAILS on the code: in the 3 x 3 empty world with
the O figure entirely above the grid, legal candidates exist but none of
their searches can reach the out-of-range goal pose, and `solve` throws a
TypeError (the frontier-duplicate branch of the search evaluates `f` on a
raw queue entry) instead of returning the empty plan. -/
theorem solve_no_path_throws : solve w33 figOAbove 100 = some (.error .typeError) := by
  rfl

/-- C5: the claim that `solve` on the 4 x 4 empty world with the O figure at
the top row returns a non-empty plan resting at the bottom FAILS on the code:
the call throws a TypeError (no plan is ever produced). -/
theorem solve_O_4x4_throws : solve w44 figureO 100 = some (.error .typeError) := by
  rfl

/-- C10: along the search's successor relation the center row index never
increases - every successor produced by `getSuccessorsOf` (shift up, left,
right, or a rotation about the figure's own center) has a center row at or
above its parent's - and consequently the search never returns a goal node
whose pose has its center in a strictly larger row than the search root's
center (for the searches the solver runs, root and goal carry the same
center index). -/
theorem successor_center_monotone_goal_below_unreachable :
    (∀ (w : World) (n s : GraphNode), s ∈ getSuccessorsOf w n →
      (s.state.getCenter).2 ≤ (n.state.getCenter).2) ∧
    (∀ (w : World) (goalF rootF : Fig) (k : Nat) (g : GraphNode),
      rootF.c = goalF.c → (rootF.getCenter).2 < (goalF.getCenter).2 →
      astarGraphSearch w goalF (GraphNode.construct rootF) k ≠ some (.ok (some g))) := by
  constructor
  · intro w n s hs
    exact (succ_state_bound w n s hs).2
  · intro w goalF rootF k g hc hlt h
    unfold astarGraphSearch at h
    split at h
    · next hroot =>
      have hpts : (GraphNode.construct rootF).state.pts = goalF.pts := figId_eq_pts hroot
      have : (rootF.getCenter).2 = (goalF.getCenter).2 := by
        unfold Fig.getCenter
        have hp : rootF.pts = goalF.pts := hpts
        rw [hp, hc]
      omega
    · refine bestFirstLoop_no_goal w goalF rootF hc hlt k _ [] ?_ g h
      intro e he
      rcases pqInsert_mem he with rfl | he'
      · exact ⟨rfl, le_refl _⟩
      · cases he'

/-- Witness for C10: in the 3 x 2 empty world, the shifted-up successor of
`curO` has a center row at or above its parent's, and a search rooted at
`figureO` toward the strictly lower goal `curO` never returns a goal node. -/
theorem successor_center_monotone_goal_below_unreachable_witness :
    ((GraphNode.construct figureO).state.getCenter).2 ≤
      ((GraphNode.construct curO).state.getCenter).2 ∧
    astarGraphSearch w23 curO (GraphNode.construct figureO) 5 ≠
      some (.ok (some (GraphNode.construct curO))) :=
  ⟨successor_center_monotone_goal_below_unreachable.1 w23 (GraphNode.construct curO)
      (GraphNode.construct figureO) (by decide),
   successor_center_monotone_goal_below_unreachable.2 w23 curO figureO 5
      (GraphNode.construct curO) rfl (by decide)⟩
